import Mathlib

/-!
Verification of the ExCompara spreadsheet-comparison tool (src/tool.py).

The embedding models a workbook as a list of named sheets, each sheet a
list of named columns whose cells may be null (`Option String`, with
`none` standing for a NaN cell that pandas `dropna` removes).  An
identifier table (the Python dict built by `_read_excel_file`) is an
association list from sheet name to the list of CVE identifiers, in
insertion order, exactly as a Python dict preserves it.  Python
`set(xs) - set(ys)` materialised back to a list is modelled by
deduplicating `xs` and keeping the elements not in `ys`; the iteration
order of a Python set is unspecified, so order-sensitive claims are
treated through the `ord`-parameterised variants below.  Rational
numbers stand for the Python floats of `calculate_cve_changes`; every
value arising in the claims is exactly representable.
-/

namespace ExCompara

/-- A sheet of a workbook: a name and a list of columns, each column a
header paired with its cells (`none` = null/NaN cell). -/
structure Sheet where
  name : String
  columns : List (String × List (Option String))
deriving DecidableEq, Repr

/-- Column lookup by header, as `sheet_data["CVE_ID"]` after the
`"CVE_ID" in sheet_data.columns` test in `_read_excel_file`. -/
def Sheet.getColumn (s : Sheet) (c : String) : Option (List (Option String)) :=
  (s.columns.find? (fun p => p.1 == c)).map Prod.snd

/-- The identifier table: Python dict from sheet name to list of CVE ids,
as an insertion-ordered association list. -/
abbrev IdTable := List (String × List String)

/-- The keys of a table, in insertion order. -/
def dictKeys (m : IdTable) : List String := m.map Prod.fst

/-- Python `m.get(k, [])`: the value of the first entry with key `k`,
or the empty list. -/
def dictGet (m : IdTable) (k : String) : List String :=
  match m.find? (fun p => p.1 == k) with
  | some p => p.2
  | none => []

/-- The `mapping[sheet_name] = [] if absent; mapping[sheet_name].extend(...)`
step of `_read_excel_file`. -/
def insertExtend (m : IdTable) (k : String) (vs : List String) : IdTable :=
  if m.any (fun p => p.1 == k) then
    m.map (fun p => if p.1 == k then (p.1, p.2 ++ vs) else p)
  else m ++ [(k, vs)]

/-- One iteration of the sheet loop of `ExCompara._read_excel_file`
(src/tool.py lines 74-83): a sheet whose name is not the literal
`"Sheet1"` and that has a `"CVE_ID"` column contributes its non-null
cells, in row order, to the mapping. -/
def readStep (mapping : IdTable) (sheet : Sheet) : IdTable :=
  if sheet.name == "Sheet1" then mapping
  else
    match sheet.getColumn "CVE_ID" with
    | some cells => insertExtend mapping sheet.name (cells.filterMap id)
    | none => mapping

/-- The sheet-enumeration loop of `ExCompara._read_excel_file`
(src/tool.py lines 72-85). -/
def read_excel_sheets (sheets : List Sheet) : IdTable :=
  sheets.foldl readStep []

/-- `ExCompara._read_excel_file` (src/tool.py lines 57-85).  The file
system is a partial map from paths to workbooks; an unresolved path
raises `FileNotFoundError` naming the path (modelled as `Except.error`
carrying the message). -/
def read_excel_file (fs : String → Option (List Sheet)) (path : String) :
    Except String IdTable :=
  match fs path with
  | none => .error ("FileNotFoundError: File " ++ path ++ " not found.")
  | some sheets => .ok (read_excel_sheets sheets)

/-- Python `list(set(xs) - set(ys))`: the distinct elements of `xs` that
do not occur in `ys` (one canonical order; set-iteration order is
handled by the `ord`-parameterised variants). -/
def setDiff (xs ys : List String) : List String :=
  xs.dedup.filter (fun x => decide (x ∉ ys))

/-- `ExCompara.find_fixed_cves` (src/tool.py lines 97-104) on two
already-loaded tables: for every sheet of the old table, the old
identifiers absent from the new table for that sheet, kept only when
non-empty. -/
def find_fixed_cves (oldM newM : IdTable) : IdTable :=
  oldM.filterMap (fun p =>
    let missing := setDiff p.2 (dictGet newM p.1)
    if missing.isEmpty then none else some (p.1, missing))

/-- `ExCompara.find_newly_added_cves` (src/tool.py lines 116-123):
the symmetric computation over the sheets of the new table. -/
def find_newly_added_cves (oldM newM : IdTable) : IdTable :=
  newM.filterMap (fun p =>
    let added := setDiff p.2 (dictGet oldM p.1)
    if added.isEmpty then none else some (p.1, added))

/-- `find_fixed_cves` with an explicit set-enumeration order `ord`
applied where Python materialises `list(set(...) - set(...))`: any
function with `(ord l).toFinset = l.toFinset` is a possible behaviour
of the unspecified Python set-iteration order. -/
def find_fixed_cves_ord (ord : List String → List String)
    (oldM newM : IdTable) : IdTable :=
  oldM.filterMap (fun p =>
    let missing := ord (setDiff p.2 (dictGet newM p.1))
    if missing.isEmpty then none else some (p.1, missing))

/-- `find_newly_added_cves` with an explicit set-enumeration order. -/
def find_newly_added_cves_ord (ord : List String → List String)
    (oldM newM : IdTable) : IdTable :=
  newM.filterMap (fun p =>
    let added := ord (setDiff p.2 (dictGet oldM p.1))
    if added.isEmpty then none else some (p.1, added))

/-- The distinct identifiers of a whole table, flattened across all
sheets: `set(cve for cves in mapping.values() for cve in cves)` in
`calculate_cve_changes` (src/tool.py lines 156-157). -/
def distinctCves (m : IdTable) : List String :=
  (m.map Prod.snd).flatten.dedup

/-- `ExCompara.calculate_cve_changes` (src/tool.py lines 148-167): the
percentage `total_new / total_old * 100`, or `0` when `total_old = 0`. -/
def calculate_cve_changes (oldM newM : IdTable) : ℚ :=
  let total_old := (distinctCves oldM).length
  let total_new := (distinctCves newM).length
  if total_old ≠ 0 then ((total_new : ℚ) / (total_old : ℚ)) * 100 else 0

/-- The spec-side aggregate set: union of the per-sheet identifier sets
of a table (one set per table, global de-duplication across sheets). -/
def globalDistinct (m : IdTable) : Finset String :=
  m.foldr (fun p acc => p.2.toFinset ∪ acc) ∅

/-- A severity table: rows of a category label followed by the numeric
count cells (src/tool.py `vulnerability_count` sheet). -/
abbrev SeverityTable := List (String × List Int)

/-- `ExCompara.compare_severity_analysis` (src/tool.py lines 142-146):
`diff_data = old.copy(); diff_data.iloc[:, 1:] = old.iloc[:, 1:] -
new.iloc[:, 1:]` under the shared-schema invariant of the severity
tables — the label column of the old table, and positional subtraction
of the numeric cells. -/
def compare_severity_analysis (old new : SeverityTable) : SeverityTable :=
  List.zipWith (fun o n => (o.1, List.zipWith (fun a b => a - b) o.2 n.2)) old new

/-- The load-then-diff run of `find_fixed_cves` (src/tool.py lines
94-95): both files are read before any comparison, so a missing file
aborts with no result. -/
def find_fixed_pipeline (fs : String → Option (List Sheet))
    (oldPath newPath : String) : Except String IdTable := do
  let oldM ← read_excel_file fs oldPath
  let newM ← read_excel_file fs newPath
  pure (find_fixed_cves oldM newM)

/-! ### Basic lemmas about the dictionary operations -/

theorem dictKeys_nil : dictKeys [] = [] := rfl

theorem dictKeys_cons (k : String) (v : List String) (m : IdTable) :
    dictKeys ((k, v) :: m) = k :: dictKeys m := rfl

theorem dictGet_cons (k s : String) (v : List String) (m : IdTable) :
    dictGet ((k, v) :: m) s = if k = s then v else dictGet m s := by
  by_cases h : k = s
  · subst h
    simp [dictGet]
  · simp only [dictGet, List.find?_cons_of_neg, if_neg h]
    simp [h]

theorem mem_dictKeys {m : IdTable} {s : String} :
    s ∈ dictKeys m ↔ ∃ l, (s, l) ∈ m := by
  constructor
  · intro h
    rcases List.mem_map.mp h with ⟨p, hp, hfst⟩
    exact ⟨p.2, by rw [← hfst]; exact hp⟩
  · rintro ⟨l, hl⟩
    exact List.mem_map.mpr ⟨(s, l), hl, rfl⟩

theorem dictGet_eq_of_mem {m : IdTable} {s : String} {l : List String}
    (hnd : (dictKeys m).Nodup) (hm : (s, l) ∈ m) : dictGet m s = l := by
  induction m with
  | nil => cases hm
  | cons p m ih =>
    obtain ⟨k, v⟩ := p
    rw [dictKeys_cons, List.nodup_cons] at hnd
    rcases List.mem_cons.mp hm with heq | htl
    · injection heq with h1 h2
      subst h1
      subst h2
      rw [dictGet_cons]
      simp
    · have hk : k ≠ s := by
        intro h
        subst h
        exact hnd.1 (mem_dictKeys.mpr ⟨l, htl⟩)
      rw [dictGet_cons, if_neg hk]
      exact ih hnd.2 htl

theorem dictGet_mem {m : IdTable} {s : String} (h : s ∈ dictKeys m) :
    (s, dictGet m s) ∈ m := by
  induction m with
  | nil => cases h
  | cons p m ih =>
    obtain ⟨k, v⟩ := p
    rw [dictGet_cons]
    by_cases hk : k = s
    · subst hk
      simp
    · rw [dictKeys_cons, List.mem_cons] at h
      rcases h with h | h
      · exact absurd h.symm hk
      · exact List.mem_cons.mpr (Or.inr (by rw [if_neg hk]; exact ih h))

theorem dictGet_eq_nil_of_not_mem {m : IdTable} {s : String}
    (h : s ∉ dictKeys m) : dictGet m s = [] := by
  induction m with
  | nil => rfl
  | cons p m ih =>
    obtain ⟨k, v⟩ := p
    rw [dictKeys_cons, List.mem_cons] at h
    push_neg at h
    rw [dictGet_cons, if_neg (fun hk => h.1 hk.symm)]
    exact ih h.2

/-! ### Lemmas about `setDiff` -/

theorem mem_setDiff {xs ys : List String} {a : String} :
    a ∈ setDiff xs ys ↔ a ∈ xs ∧ a ∉ ys := by
  simp [setDiff, List.mem_filter, List.mem_dedup]

theorem setDiff_nodup (xs ys : List String) : (setDiff xs ys).Nodup :=
  (List.nodup_dedup xs).filter _

theorem setDiff_toFinset (xs ys : List String) :
    (setDiff xs ys).toFinset = xs.toFinset \ ys.toFinset := by
  ext a
  simp [mem_setDiff, Finset.mem_sdiff]

theorem setDiff_eq_nil_iff {xs ys : List String} :
    setDiff xs ys = [] ↔ xs.toFinset \ ys.toFinset = ∅ := by
  rw [← List.toFinset_eq_empty_iff, setDiff_toFinset]

theorem setDiff_self (xs : List String) : setDiff xs xs = [] := by
  rw [setDiff_eq_nil_iff, sdiff_self]
  rfl

/-! ### Membership characterisation of the diff computations -/

theorem added_eq_fixed_swap (A B : IdTable) :
    find_newly_added_cves A B = find_fixed_cves B A := rfl

theorem added_ord_eq_fixed_ord_swap (ord : List String → List String)
    (A B : IdTable) :
    find_newly_added_cves_ord ord A B = find_fixed_cves_ord ord B A := rfl

theorem mem_find_fixed_iff {A B : IdTable} {s : String} {l : List String} :
    (s, l) ∈ find_fixed_cves A B ↔
      ∃ la, (s, la) ∈ A ∧ l = setDiff la (dictGet B s) ∧ l ≠ [] := by
  simp only [find_fixed_cves, List.mem_filterMap]
  constructor
  · rintro ⟨⟨k, v⟩, hmem, hf⟩
    dsimp only at hf
    by_cases he : (setDiff v (dictGet B k)).isEmpty
    · rw [if_pos he] at hf
      cases hf
    · rw [if_neg he] at hf
      obtain ⟨hk, hl⟩ := Prod.mk.injEq .. ▸ Option.some.injEq .. ▸ hf
      subst hk
      refine ⟨v, hmem, hl.symm, ?_⟩
      rw [← hl]
      simpa using he
  · rintro ⟨la, hmem, hl, hne⟩
    refine ⟨(s, la), hmem, ?_⟩
    dsimp only
    rw [if_neg (by simpa using (hl ▸ hne))]
    rw [hl]

/-! ### Keys of the loader output -/

theorem mem_dictKeys_insertExtend {m : IdTable} {k : String}
    {vs : List String} {s : String} :
    s ∈ dictKeys (insertExtend m k vs) ↔ s ∈ dictKeys m ∨ s = k := by
  unfold insertExtend
  by_cases h : m.any (fun p => p.1 == k)
  · rw [if_pos h]
    have hkeys : dictKeys (m.map fun p => if p.1 == k then (p.1, p.2 ++ vs) else p)
        = dictKeys m := by
      unfold dictKeys
      rw [List.map_map]
      apply List.map_congr_left
      intro p _
      by_cases hp : p.1 = k <;> simp [hp]
    rw [hkeys]
    rcases List.any_eq_true.mp h with ⟨p, hp, hpk⟩
    constructor
    · exact Or.inl
    · rintro (hs | rfl)
      · exact hs
      · exact mem_dictKeys.mpr ⟨p.2, by
          have : p.1 = s := by simpa using hpk
          rw [← this]
          exact hp⟩
  · rw [if_neg h]
    unfold dictKeys
    rw [List.map_append]
    simp [or_comm, eq_comm]

theorem mem_dictKeys_foldl_readStep (sheets : List Sheet) (m : IdTable)
    (s : String) :
    s ∈ dictKeys (sheets.foldl readStep m) ↔
      s ∈ dictKeys m ∨
        (s ≠ "Sheet1" ∧ ∃ sh ∈ sheets, sh.name = s ∧ (sh.getColumn "CVE_ID").isSome) := by
  induction sheets generalizing m with
  | nil => simp
  | cons sh rest ih =>
    rw [List.foldl_cons, ih]
    by_cases h1 : sh.name = "Sheet1"
    · have hstep : readStep m sh = m := by simp [readStep, h1]
      rw [hstep]
      constructor
      · rintro (hs | ⟨hne, sh2, hmem, hname, hcol⟩)
        · exact Or.inl hs
        · exact Or.inr ⟨hne, sh2, List.mem_cons_of_mem _ hmem, hname, hcol⟩
      · rintro (hs | ⟨hne, sh2, hmem, hname, hcol⟩)
        · exact Or.inl hs
        · rcases List.mem_cons.mp hmem with rfl | hmem2
          · exact absurd (hname ▸ h1) hne
          · exact Or.inr ⟨hne, sh2, hmem2, hname, hcol⟩
    · rcases h2 : sh.getColumn "CVE_ID" with _ | cells
      · have hstep : readStep m sh = m := by simp [readStep, h1, h2]
        rw [hstep]
        constructor
        · rintro (hs | ⟨hne, sh2, hmem, hname, hcol⟩)
          · exact Or.inl hs
          · exact Or.inr ⟨hne, sh2, List.mem_cons_of_mem _ hmem, hname, hcol⟩
        · rintro (hs | ⟨hne, sh2, hmem, hname, hcol⟩)
          · exact Or.inl hs
          · rcases List.mem_cons.mp hmem with rfl | hmem2
            · rw [h2] at hcol
              cases hcol
            · exact Or.inr ⟨hne, sh2, hmem2, hname, hcol⟩
      · have hstep : readStep m sh = insertExtend m sh.name (cells.filterMap id) := by
          simp [readStep, h1, h2]
        rw [hstep, mem_dictKeys_insertExtend]
        constructor
        · rintro ((hs | rfl) | ⟨hne, sh2, hmem, hname, hcol⟩)
          · exact Or.inl hs
          · exact Or.inr ⟨h1, sh, List.mem_cons_self .., rfl, by rw [h2]; rfl⟩
          · exact Or.inr ⟨hne, sh2, List.mem_cons_of_mem _ hmem, hname, hcol⟩
        · rintro (hs | ⟨hne, sh2, hmem, hname, hcol⟩)
          · exact Or.inl (Or.inl hs)
          · rcases List.mem_cons.mp hmem with rfl | hmem2
            · exact Or.inl (Or.inr hname.symm)
            · exact Or.inr ⟨hne, sh2, hmem2, hname, hcol⟩

theorem mem_dictKeys_read_excel_sheets (sheets : List Sheet) (s : String) :
    s ∈ dictKeys (read_excel_sheets sheets) ↔
      s ≠ "Sheet1" ∧ ∃ sh ∈ sheets, sh.name = s ∧ (sh.getColumn "CVE_ID").isSome := by
  rw [read_excel_sheets, mem_dictKeys_foldl_readStep]
  simp [dictKeys]

/-! ### The aggregate distinct-identifier set -/

theorem globalDistinct_nil : globalDistinct [] = ∅ := rfl

theorem globalDistinct_cons (p : String × List String) (m : IdTable) :
    globalDistinct (p :: m) = p.2.toFinset ∪ globalDistinct m := rfl

theorem mem_globalDistinct {m : IdTable} {a : String} :
    a ∈ globalDistinct m ↔ ∃ p ∈ m, a ∈ p.2 := by
  induction m with
  | nil => simp [globalDistinct_nil]
  | cons q m ih =>
    rw [globalDistinct_cons]
    simp [ih]

theorem distinctCves_toFinset (m : IdTable) :
    (distinctCves m).toFinset = globalDistinct m := by
  ext a
  simp only [distinctCves, List.mem_toFinset, List.mem_dedup, List.mem_flatten,
    List.mem_map, mem_globalDistinct]
  constructor
  · rintro ⟨l, ⟨p, hp, rfl⟩, hal⟩
    exact ⟨p, hp, hal⟩
  · rintro ⟨p, hp, hal⟩
    exact ⟨p.2, ⟨p, hp, rfl⟩, hal⟩

theorem distinctCves_nodup (m : IdTable) : (distinctCves m).Nodup :=
  List.nodup_dedup _

theorem distinctCves_length (m : IdTable) :
    (distinctCves m).length = (globalDistinct m).card := by
  rw [← distinctCves_toFinset, List.toFinset_card_of_nodup (distinctCves_nodup m)]

/-! ### Order-independence of the set materialisation -/

theorem find_fixed_ord_cons (ord : List String → List String)
    (k : String) (v : List String) (A B : IdTable) :
    find_fixed_cves_ord ord ((k, v) :: A) B =
      if (ord (setDiff v (dictGet B k))).isEmpty then
        find_fixed_cves_ord ord A B
      else (k, ord (setDiff v (dictGet B k))) :: find_fixed_cves_ord ord A B := by
  unfold find_fixed_cves_ord
  rw [List.filterMap_cons]
  by_cases h : (ord (setDiff v (dictGet B k))).isEmpty <;> simp [h]

theorem find_fixed_ord_congr (ord₁ ord₂ : List String → List String)
    (h₁ : ∀ l, (ord₁ l).toFinset = l.toFinset)
    (h₂ : ∀ l, (ord₂ l).toFinset = l.toFinset)
    (A B : IdTable) :
    dictKeys (find_fixed_cves_ord ord₁ A B) = dictKeys (find_fixed_cves_ord ord₂ A B) ∧
    ∀ s, (dictGet (find_fixed_cves_ord ord₁ A B) s).toFinset =
        (dictGet (find_fixed_cves_ord ord₂ A B) s).toFinset := by
  have e₁ : ∀ l : List String, ord₁ l = [] ↔ l = [] := fun l => by
    rw [← List.toFinset_eq_empty_iff, h₁, List.toFinset_eq_empty_iff]
  have e₂ : ∀ l : List String, ord₂ l = [] ↔ l = [] := fun l => by
    rw [← List.toFinset_eq_empty_iff, h₂, List.toFinset_eq_empty_iff]
  induction A with
  | nil => exact ⟨rfl, fun _ => rfl⟩
  | cons p A ih =>
    obtain ⟨k, v⟩ := p
    rw [find_fixed_ord_cons, find_fixed_ord_cons]
    by_cases hd : setDiff v (dictGet B k) = []
    · have o1 : (ord₁ (setDiff v (dictGet B k))).isEmpty = true := by
        rw [List.isEmpty_iff, e₁]
        exact hd
      have o2 : (ord₂ (setDiff v (dictGet B k))).isEmpty = true := by
        rw [List.isEmpty_iff, e₂]
        exact hd
      rw [if_pos o1, if_pos o2]
      exact ih
    · have o1 : ¬(ord₁ (setDiff v (dictGet B k))).isEmpty = true := by
        rw [List.isEmpty_iff, e₁]
        exact hd
      have o2 : ¬(ord₂ (setDiff v (dictGet B k))).isEmpty = true := by
        rw [List.isEmpty_iff, e₂]
        exact hd
      rw [if_neg o1, if_neg o2]
      refine ⟨?_, ?_⟩
      · rw [dictKeys_cons, dictKeys_cons, ih.1]
      · intro s
        rw [dictGet_cons, dictGet_cons]
        by_cases hk : k = s
        · rw [if_pos hk, if_pos hk, h₁, h₂]
        · rw [if_neg hk, if_neg hk]
          exact ih.2 s

/-! ### Characterisations used by several claims -/

theorem fixed_char {A : IdTable} (B : IdTable) {s : String} {V : Finset String}
    (hA : (dictKeys A).Nodup) :
    (∃ l, (s, l) ∈ find_fixed_cves A B ∧ l.toFinset = V) ↔
      (s ∈ dictKeys A ∧ V = (dictGet A s).toFinset \ (dictGet B s).toFinset ∧
        V.Nonempty) := by
  constructor
  · rintro ⟨l, hmem, rfl⟩
    rcases mem_find_fixed_iff.mp hmem with ⟨la, hla, hl, hne⟩
    have hkey : s ∈ dictKeys A := mem_dictKeys.mpr ⟨la, hla⟩
    have hget : dictGet A s = la := dictGet_eq_of_mem hA hla
    subst hl
    refine ⟨hkey, ?_, ?_⟩
    · rw [setDiff_toFinset, hget]
    · rw [List.toFinset_nonempty_iff]
      exact hne
  · rintro ⟨hkey, hV, hne⟩
    refine ⟨setDiff (dictGet A s) (dictGet B s), ?_, ?_⟩
    · apply mem_find_fixed_iff.mpr
      refine ⟨dictGet A s, dictGet_mem hkey, rfl, ?_⟩
      intro h0
      rw [setDiff_eq_nil_iff] at h0
      exact Finset.nonempty_iff_ne_empty.mp hne (hV.trans h0)
    · rw [setDiff_toFinset, hV]

theorem fixed_no_entry {A : IdTable} (B : IdTable) {s : String}
    (hs : s ∉ dictKeys A) : s ∉ dictKeys (find_fixed_cves A B) := by
  intro hmem
  rcases mem_dictKeys.mp hmem with ⟨l, hl⟩
  rcases mem_find_fixed_iff.mp hl with ⟨la, hla, _, _⟩
  exact hs (mem_dictKeys.mpr ⟨la, hla⟩)

theorem fixed_key_nonempty {A : IdTable} (B : IdTable) {s : String}
    (hA : (dictKeys A).Nodup) (hs : s ∈ dictKeys (find_fixed_cves A B)) :
    ((dictGet A s).toFinset \ (dictGet B s).toFinset).Nonempty ∧
      dictGet (find_fixed_cves A B) s ≠ [] := by
  have hmem := dictGet_mem hs
  rcases mem_find_fixed_iff.mp hmem with ⟨la, hla, hl, hne⟩
  constructor
  · rw [dictGet_eq_of_mem hA hla, ← setDiff_toFinset, List.toFinset_nonempty_iff]
    rw [← hl]
    exact hne
  · exact hne

theorem calculate_cve_changes_eq (A B : IdTable) :
    calculate_cve_changes A B =
      if (globalDistinct A).card = 0 then 0
      else ((globalDistinct B).card : ℚ) / ((globalDistinct A).card : ℚ) * 100 := by
  simp only [calculate_cve_changes, distinctCves_length]
  by_cases h : (globalDistinct A).card = 0 <;> simp [h]

theorem globalDistinct_append (m₁ m₂ : IdTable) :
    globalDistinct (m₁ ++ m₂) = globalDistinct m₁ ∪ globalDistinct m₂ := by
  induction m₁ with
  | nil =>
    rw [List.nil_append, globalDistinct_nil, Finset.empty_union]
  | cons p m₁ ih =>
    rw [List.cons_append, globalDistinct_cons, globalDistinct_cons, ih,
      Finset.union_assoc]

/-! ### Claim theorems -/

/-- Claim C1: for identifier tables A (old) and B (new), the fixed-CVE
result has an entry for sheet s with value set V iff s is a key of A and
V = set(A[s]) minus set(B.get(s, [])) is non-empty; symmetrically the
added-CVE result has an entry for s with value set V iff s is a key of B
and V = set(B[s]) minus set(A.get(s, [])) is non-empty.  In particular a
sheet present only in the new table produces no fixed entry, and a sheet
present only in the old table produces no added entry. -/
theorem C1_diff_characterization (A B : IdTable) (s : String) (V : Finset String)
    (hA : (dictKeys A).Nodup) (hB : (dictKeys B).Nodup) :
    ((∃ l, (s, l) ∈ find_fixed_cves A B ∧ l.toFinset = V) ↔
      (s ∈ dictKeys A ∧ V = (dictGet A s).toFinset \ (dictGet B s).toFinset ∧
        V.Nonempty)) ∧
    ((∃ l, (s, l) ∈ find_newly_added_cves A B ∧ l.toFinset = V) ↔
      (s ∈ dictKeys B ∧ V = (dictGet B s).toFinset \ (dictGet A s).toFinset ∧
        V.Nonempty)) ∧
    (s ∉ dictKeys A → s ∉ dictKeys (find_fixed_cves A B)) ∧
    (s ∉ dictKeys B → s ∉ dictKeys (find_newly_added_cves A B)) := by
  refine ⟨fixed_char B hA, ?_, fun h => fixed_no_entry B h, fun h => ?_⟩
  · rw [added_eq_fixed_swap]
    exact fixed_char A hB
  · rw [added_eq_fixed_swap]
    exact fixed_no_entry A h

/-- Witness for C1 at the end-to-end scenario of the spec: old table
{App1: [CVE-1, CVE-2]}, new table {App1: [CVE-2, CVE-3], App2: [CVE-4]},
sheet App1, value set {CVE-1}. -/
theorem C1_diff_characterization_witness :
    ((∃ l, ("App1", l) ∈
        find_fixed_cves [("App1", ["CVE-1", "CVE-2"])]
          [("App1", ["CVE-2", "CVE-3"]), ("App2", ["CVE-4"])] ∧
        l.toFinset = ({"CVE-1"} : Finset String)) ↔
      ("App1" ∈ dictKeys [("App1", ["CVE-1", "CVE-2"])] ∧
        ({"CVE-1"} : Finset String) =
          (dictGet [("App1", ["CVE-1", "CVE-2"])] "App1").toFinset \
            (dictGet [("App1", ["CVE-2", "CVE-3"]), ("App2", ["CVE-4"])] "App1").toFinset ∧
        ({"CVE-1"} : Finset String).Nonempty)) ∧
    ((∃ l, ("App1", l) ∈
        find_newly_added_cves [("App1", ["CVE-1", "CVE-2"])]
          [("App1", ["CVE-2", "CVE-3"]), ("App2", ["CVE-4"])] ∧
        l.toFinset = ({"CVE-1"} : Finset String)) ↔
      ("App1" ∈ dictKeys [("App1", ["CVE-2", "CVE-3"]), ("App2", ["CVE-4"])] ∧
        ({"CVE-1"} : Finset String) =
          (dictGet [("App1", ["CVE-2", "CVE-3"]), ("App2", ["CVE-4"])] "App1").toFinset \
            (dictGet [("App1", ["CVE-1", "CVE-2"])] "App1").toFinset ∧
        ({"CVE-1"} : Finset String).Nonempty)) ∧
    ("App1" ∉ dictKeys [("App1", ["CVE-1", "CVE-2"])] →
      "App1" ∉ dictKeys (find_fixed_cves [("App1", ["CVE-1", "CVE-2"])]
        [("App1", ["CVE-2", "CVE-3"]), ("App2", ["CVE-4"])])) ∧
    ("App1" ∉ dictKeys [("App1", ["CVE-2", "CVE-3"]), ("App2", ["CVE-4"])] →
      "App1" ∉ dictKeys (find_newly_added_cves [("App1", ["CVE-1", "CVE-2"])]
        [("App1", ["CVE-2", "CVE-3"]), ("App2", ["CVE-4"])])) :=
  C1_diff_characterization [("App1", ["CVE-1", "CVE-2"])]
    [("App1", ["CVE-2", "CVE-3"]), ("App2", ["CVE-4"])] "App1"
    ({"CVE-1"} : Finset String) (by decide) (by decide)

/-- Claim C5: self-comparison yields no differences — for any identifier
table A (whose keys are distinct, as for every Python dict), both the
fixed-CVE result and the added-CVE result of A against A are empty. -/
theorem C5_self_comparison_empty (A : IdTable) (hA : (dictKeys A).Nodup) :
    find_fixed_cves A A = [] ∧ find_newly_added_cves A A = [] := by
  have h : find_fixed_cves A A = [] := by
    apply List.filterMap_eq_nil_iff.mpr
    rintro ⟨k, v⟩ hm
    simp only [dictGet_eq_of_mem hA hm, setDiff_self, List.isEmpty_nil, if_true]
  exact ⟨h, by rw [added_eq_fixed_swap]; exact h⟩

/-- Witness for C5 at a concrete two-sheet table. -/
theorem C5_self_comparison_empty_witness :
    find_fixed_cves [("App1", ["CVE-1", "CVE-2"]), ("App2", ["CVE-1"])]
        [("App1", ["CVE-1", "CVE-2"]), ("App2", ["CVE-1"])] = [] ∧
    find_newly_added_cves [("App1", ["CVE-1", "CVE-2"]), ("App2", ["CVE-1"])]
        [("App1", ["CVE-1", "CVE-2"]), ("App2", ["CVE-1"])] = [] :=
  C5_self_comparison_empty [("App1", ["CVE-1", "CVE-2"]), ("App2", ["CVE-1"])]
    (by decide)

/-- Claim C6: duplicates within one sheet never produce duplicate entries
in a diff result — every list stored in the fixed or added result has no
repeated elements — and for old = [CVE-1, CVE-1, CVE-2] against
new = [CVE-2] the fixed result for that sheet is exactly {CVE-1}. -/
theorem C6_no_duplicate_entries (A B : IdTable) :
    (∀ s l, (s, l) ∈ find_fixed_cves A B → l.Nodup) ∧
    (∀ s l, (s, l) ∈ find_newly_added_cves A B → l.Nodup) ∧
    find_fixed_cves [("Image1", ["CVE-1", "CVE-1", "CVE-2"])]
        [("Image1", ["CVE-2"])] = [("Image1", ["CVE-1"])] := by
  refine ⟨?_, ?_, by decide⟩
  · intro s l hm
    rcases mem_find_fixed_iff.mp hm with ⟨la, _, rfl, _⟩
    exact setDiff_nodup _ _
  · intro s l hm
    rw [added_eq_fixed_swap] at hm
    rcases mem_find_fixed_iff.mp hm with ⟨la, _, rfl, _⟩
    exact setDiff_nodup _ _

/-- Witness for C6: the stored list of the concrete duplicate scenario is
duplicate-free. -/
theorem C6_no_duplicate_entries_witness : (["CVE-1"] : List String).Nodup :=
  (C6_no_duplicate_entries [("Image1", ["CVE-1", "CVE-1", "CVE-2"])]
      [("Image1", ["CVE-2"])]).1 "Image1" ["CVE-1"] (by decide)

/-- Claim C7: invariant of both diff results — a sheet name is a key of
the result only if its computed difference set is non-empty, and no key
of the result maps to an empty collection. -/
theorem C7_nonempty_invariant (A B : IdTable) (s : String)
    (hA : (dictKeys A).Nodup) (hB : (dictKeys B).Nodup) :
    (s ∈ dictKeys (find_fixed_cves A B) →
      ((dictGet A s).toFinset \ (dictGet B s).toFinset).Nonempty ∧
        dictGet (find_fixed_cves A B) s ≠ []) ∧
    (s ∈ dictKeys (find_newly_added_cves A B) →
      ((dictGet B s).toFinset \ (dictGet A s).toFinset).Nonempty ∧
        dictGet (find_newly_added_cves A B) s ≠ []) ∧
    (∀ l, (s, l) ∈ find_fixed_cves A B → l ≠ []) ∧
    (∀ l, (s, l) ∈ find_newly_added_cves A B → l ≠ []) := by
  refine ⟨fun hs => fixed_key_nonempty B hA hs, fun hs => ?_, fun l hm => ?_,
    fun l hm => ?_⟩
  · rw [added_eq_fixed_swap] at hs ⊢
    exact fixed_key_nonempty A hB hs
  · exact (mem_find_fixed_iff.mp hm).choose_spec.2.2
  · rw [added_eq_fixed_swap] at hm
    exact (mem_find_fixed_iff.mp hm).choose_spec.2.2

/-- Witness for C7 at the end-to-end scenario tables of the spec. -/
theorem C7_nonempty_invariant_witness :
    ("App1" ∈ dictKeys (find_fixed_cves [("App1", ["CVE-1", "CVE-2"])]
        [("App1", ["CVE-2", "CVE-3"]), ("App2", ["CVE-4"])]) →
      ((dictGet [("App1", ["CVE-1", "CVE-2"])] "App1").toFinset \
          (dictGet [("App1", ["CVE-2", "CVE-3"]), ("App2", ["CVE-4"])] "App1").toFinset).Nonempty ∧
        dictGet (find_fixed_cves [("App1", ["CVE-1", "CVE-2"])]
          [("App1", ["CVE-2", "CVE-3"]), ("App2", ["CVE-4"])]) "App1" ≠ []) ∧
    ("App1" ∈ dictKeys (find_newly_added_cves [("App1", ["CVE-1", "CVE-2"])]
        [("App1", ["CVE-2", "CVE-3"]), ("App2", ["CVE-4"])]) →
      ((dictGet [("App1", ["CVE-2", "CVE-3"]), ("App2", ["CVE-4"])] "App1").toFinset \
          (dictGet [("App1", ["CVE-1", "CVE-2"])] "App1").toFinset).Nonempty ∧
        dictGet (find_newly_added_cves [("App1", ["CVE-1", "CVE-2"])]
          [("App1", ["CVE-2", "CVE-3"]), ("App2", ["CVE-4"])]) "App1" ≠ []) ∧
    (∀ l, ("App1", l) ∈ find_fixed_cves [("App1", ["CVE-1", "CVE-2"])]
        [("App1", ["CVE-2", "CVE-3"]), ("App2", ["CVE-4"])] → l ≠ []) ∧
    (∀ l, ("App1", l) ∈ find_newly_added_cves [("App1", ["CVE-1", "CVE-2"])]
        [("App1", ["CVE-2", "CVE-3"]), ("App2", ["CVE-4"])] → l ≠ []) :=
  C7_nonempty_invariant [("App1", ["CVE-1", "CVE-2"])]
    [("App1", ["CVE-2", "CVE-3"]), ("App2", ["CVE-4"])] "App1"
    (by decide) (by decide)

/-- Claim C2 counterexample: the loader only skips the literal "Sheet1";
a sheet literally named "vulnerability_count" that carries a "CVE_ID"
column does contribute an entry, contradicting the claim that the
summary sheet is never enumerated. -/
theorem C2_counterexample :
    "vulnerability_count" ∈ dictKeys (read_excel_sheets
      [⟨"vulnerability_count", [("CVE_ID", [some "CVE-1"])]⟩]) ∧
    read_excel_sheets [⟨"vulnerability_count", [("CVE_ID", [some "CVE-1"])]⟩] =
      [("vulnerability_count", ["CVE-1"])] := by
  decide

/-- Claim C2 as amended: the loader enumerates every sheet except the
literal default placeholder "Sheet1" (the summary sheet name is not
excluded); a sheet name is a key of the loaded table exactly when it is
not "Sheet1" and some sheet of that name has a "CVE_ID" column, so the
summary sheet contributes no entry only when it lacks such a column. -/
theorem C2_loader_enumeration (sheets : List Sheet) (s : String) :
    ("Sheet1" ∉ dictKeys (read_excel_sheets sheets)) ∧
    (s ∈ dictKeys (read_excel_sheets sheets) ↔
      s ≠ "Sheet1" ∧
        ∃ sh ∈ sheets, sh.name = s ∧ (sh.getColumn "CVE_ID").isSome) := by
  constructor
  · intro h
    exact ((mem_dictKeys_read_excel_sheets sheets "Sheet1").mp h).1 rfl
  · exact mem_dictKeys_read_excel_sheets sheets s

/-- Claim C3: the aggregate statistic flattens all identifiers of each
table into one globally de-duplicated set per table, counts the distinct
elements, and returns new/old*100 as a percentage, with 0 when the old
distinct count is 0; a table with old distinct count 10 and new distinct
count 8 yields 80.00%. -/
theorem C3_aggregate_percentage (A B : IdTable) :
    calculate_cve_changes A B =
      (if (globalDistinct A).card = 0 then 0
       else ((globalDistinct B).card : ℚ) / ((globalDistinct A).card : ℚ) * 100) ∧
    calculate_cve_changes
        [("S1", ["c1", "c2", "c3", "c4", "c5", "c6"]),
         ("S2", ["c5", "c6", "c7", "c8", "c9", "c10"])]
        [("T1", ["c1", "c2", "c3", "c4"]),
         ("T2", ["c4", "c5", "c6", "c7", "c8"])] = 80 ∧
    calculate_cve_changes [("S1", [])] B = 0 := by
  refine ⟨calculate_cve_changes_eq A B, ?_, ?_⟩
  · rw [calculate_cve_changes_eq]
    have h1 : (globalDistinct
        [("S1", ["c1", "c2", "c3", "c4", "c5", "c6"]),
         ("S2", ["c5", "c6", "c7", "c8", "c9", "c10"])]).card = 10 := by decide
    have h2 : (globalDistinct
        [("T1", ["c1", "c2", "c3", "c4"]),
         ("T2", ["c4", "c5", "c6", "c7", "c8"])]).card = 8 := by decide
    rw [h1, h2]
    norm_num
  · rw [calculate_cve_changes_eq]
    have h0 : (globalDistinct [("S1", ([] : List String))]).card = 0 := by decide
    rw [h0]
    simp

/-- Claim C4: under the precondition that the old and new severity
tables have the same row count and per-row the same column count, the
delta table keeps the old label column unchanged and each numeric cell
is old minus new. -/
theorem C4_severity_delta (old new : SeverityTable)
    (hlen : old.length = new.length)
    (hrow : ∀ (r : ℕ) (h1 : r < old.length) (h2 : r < new.length),
      (old[r]).2.length = (new[r]).2.length) :
    (compare_severity_analysis old new).length = old.length ∧
    ∀ (r : ℕ) (h1 : r < old.length) (h2 : r < new.length)
      (h3 : r < (compare_severity_analysis old new).length),
      ((compare_severity_analysis old new)[r]).1 = (old[r]).1 ∧
      ((compare_severity_analysis old new)[r]).2.length = (old[r]).2.length ∧
      ∀ (c : ℕ) (hc1 : c < (old[r]).2.length) (hc2 : c < (new[r]).2.length)
        (hc3 : c < ((compare_severity_analysis old new)[r]).2.length),
        ((compare_severity_analysis old new)[r]).2[c] =
          (old[r]).2[c] - (new[r]).2[c] := by
  have hL : (compare_severity_analysis old new).length = old.length := by
    simp [compare_severity_analysis, hlen]
  refine ⟨hL, fun r h1 h2 h3 => ?_⟩
  have hget : (compare_severity_analysis old new)[r] =
      ((old[r]).1, List.zipWith (fun a b => a - b) (old[r]).2 (new[r]).2) :=
    List.getElem_zipWith
  rw [hget]
  refine ⟨rfl, ?_, ?_⟩
  · rw [List.length_zipWith, hrow r h1 h2, Nat.min_self]
  · intro c hc1 hc2 hc3
    exact List.getElem_zipWith

/-- Witness for C4: old row ["Critical", 5, 2] and new row
["Critical", 3, 2] produce the delta row ["Critical", 2, 0]. -/
theorem C4_severity_delta_witness :
    (compare_severity_analysis [("Critical", [(5 : Int), 2])]
        [("Critical", [(3 : Int), 2])]).length = 1 ∧
    ((compare_severity_analysis [("Critical", [(5 : Int), 2])]
        [("Critical", [(3 : Int), 2])]).get ⟨0, by decide⟩).1 = "Critical" ∧
    ((compare_severity_analysis [("Critical", [(5 : Int), 2])]
        [("Critical", [(3 : Int), 2])]).get ⟨0, by decide⟩).2.get ⟨0, by decide⟩ = 2 ∧
    ((compare_severity_analysis [("Critical", [(5 : Int), 2])]
        [("Critical", [(3 : Int), 2])]).get ⟨0, by decide⟩).2.get ⟨1, by decide⟩ = 0 := by
  have h := C4_severity_delta [("Critical", [(5 : Int), 2])]
    [("Critical", [(3 : Int), 2])] rfl
    (fun r h1 h2 => by
      obtain rfl : r = 0 := Nat.lt_one_iff.mp h1
      rfl)
  have hrow0 := h.2 0 (by decide) (by decide) (by decide)
  refine ⟨h.1, hrow0.1, ?_, ?_⟩
  · exact (hrow0.2.2 0 (by decide) (by decide) (by decide)).trans (by decide)
  · exact (hrow0.2.2 1 (by decide) (by decide) (by decide)).trans (by decide)

/-- Claim C8: loading from a path that does not resolve fails with a
FileNotFoundError naming the offending path; no identifier table is
produced for that file, and the fixed-CVE run over that path aborts with
the same error instead of a result. -/
theorem C8_missing_file (fs : String → Option (List Sheet)) (path : String)
    (h : fs path = none) :
    read_excel_file fs path =
      .error ("FileNotFoundError: File " ++ path ++ " not found.") ∧
    (∀ t, read_excel_file fs path ≠ .ok t) ∧
    (∀ newPath, find_fixed_pipeline fs path newPath =
      .error ("FileNotFoundError: File " ++ path ++ " not found.")) := by
  have h1 : read_excel_file fs path =
      .error ("FileNotFoundError: File " ++ path ++ " not found.") := by
    unfold read_excel_file
    rw [h]
  refine ⟨h1, fun t ht => ?_, fun newPath => ?_⟩
  · rw [h1] at ht
    cases ht
  · unfold find_fixed_pipeline
    rw [h1]
    rfl

/-- Witness for C8 on a file system holding no file at all. -/
theorem C8_missing_file_witness :
    read_excel_file (fun _ => none) "old_report.xlsx" =
      .error ("FileNotFoundError: File " ++ "old_report.xlsx" ++ " not found.") ∧
    (∀ t, read_excel_file (fun _ => none) "old_report.xlsx" ≠ .ok t) ∧
    (∀ newPath, find_fixed_pipeline (fun _ => none) "old_report.xlsx" newPath =
      .error ("FileNotFoundError: File " ++ "old_report.xlsx" ++ " not found.")) :=
  C8_missing_file (fun _ => none) "old_report.xlsx" rfl

/-- Claim C9: the diff computations are deterministic up to set
contents — for any two admissible set-iteration orders the fixed-CVE
(and added-CVE) results have the same keys and, per key, equal value
sets; the implementation is the identity-order instance. -/
theorem C9_order_determinism (ord₁ ord₂ : List String → List String)
    (h₁ : ∀ l, (ord₁ l).toFinset = l.toFinset)
    (h₂ : ∀ l, (ord₂ l).toFinset = l.toFinset)
    (A B : IdTable) :
    (find_fixed_cves A B = find_fixed_cves_ord (fun l => l) A B) ∧
    (find_newly_added_cves A B = find_newly_added_cves_ord (fun l => l) A B) ∧
    (dictKeys (find_fixed_cves_ord ord₁ A B) =
      dictKeys (find_fixed_cves_ord ord₂ A B)) ∧
    (∀ s, (dictGet (find_fixed_cves_ord ord₁ A B) s).toFinset =
      (dictGet (find_fixed_cves_ord ord₂ A B) s).toFinset) ∧
    (dictKeys (find_newly_added_cves_ord ord₁ A B) =
      dictKeys (find_newly_added_cves_ord ord₂ A B)) ∧
    (∀ s, (dictGet (find_newly_added_cves_ord ord₁ A B) s).toFinset =
      (dictGet (find_newly_added_cves_ord ord₂ A B) s).toFinset) := by
  obtain ⟨hk, hv⟩ := find_fixed_ord_congr ord₁ ord₂ h₁ h₂ A B
  obtain ⟨hk2, hv2⟩ := find_fixed_ord_congr ord₁ ord₂ h₁ h₂ B A
  refine ⟨rfl, rfl, hk, hv, ?_, ?_⟩
  · rw [added_ord_eq_fixed_ord_swap, added_ord_eq_fixed_ord_swap]
    exact hk2
  · rw [added_ord_eq_fixed_ord_swap, added_ord_eq_fixed_ord_swap]
    exact hv2

/-- Witness for C9 with the identity order against the reversed order on
a concrete pair of tables. -/
theorem C9_order_determinism_witness :
    (dictKeys (find_fixed_cves_ord (fun l => l) [("S", ["a", "b"])] [("S", ["b"])]) =
      dictKeys (find_fixed_cves_ord List.reverse [("S", ["a", "b"])] [("S", ["b"])])) ∧
    ((dictGet (find_fixed_cves_ord (fun l => l)
        [("S", ["a", "b"])] [("S", ["b"])]) "S").toFinset =
      (dictGet (find_fixed_cves_ord List.reverse
        [("S", ["a", "b"])] [("S", ["b"])]) "S").toFinset) := by
  have h := C9_order_determinism (fun l => l) List.reverse (fun l => rfl)
    (fun l => List.toFinset_reverse) [("S", ["a", "b"])] [("S", ["b"])]
  exact ⟨h.2.2.1, h.2.2.2.1 "S"⟩

/-- Claim C10: a non-excluded sheet whose CVE_ID column is entirely null
still yields an entry bound to the empty list; such an empty entry
contributes no fixed or added diff entry and leaves the aggregate
distinct-identifier set and count unchanged. -/
theorem C10_all_null_column :
    (∀ (name : String) (cols : List (String × List (Option String)))
        (cells : List (Option String)),
      name ≠ "Sheet1" →
      Sheet.getColumn ⟨name, cols⟩ "CVE_ID" = some cells →
      (∀ c ∈ cells, c = none) →
      read_excel_sheets [⟨name, cols⟩] = [(name, [])]) ∧
    (∀ (A B : IdTable) (s : String), (dictKeys A).Nodup → (s, []) ∈ A →
      s ∉ dictKeys (find_fixed_cves A B)) ∧
    (∀ (A B : IdTable) (s : String), (dictKeys B).Nodup → (s, []) ∈ B →
      s ∉ dictKeys (find_newly_added_cves A B)) ∧
    (∀ (m₁ m₂ : IdTable) (s : String),
      globalDistinct (m₁ ++ (s, []) :: m₂) = globalDistinct (m₁ ++ m₂) ∧
      (distinctCves (m₁ ++ (s, []) :: m₂)).length =
        (distinctCves (m₁ ++ m₂)).length) := by
  have hfixed : ∀ (A B : IdTable) (s : String), (dictKeys A).Nodup →
      (s, []) ∈ A → s ∉ dictKeys (find_fixed_cves A B) := by
    intro A B s hA hsA hmem
    rcases mem_dictKeys.mp hmem with ⟨l, hl⟩
    rcases mem_find_fixed_iff.mp hl with ⟨la, hla, hlset, hne⟩
    have : la = [] := by
      rw [← dictGet_eq_of_mem hA hla, dictGet_eq_of_mem hA hsA]
    subst this
    exact hne hlset
  refine ⟨?_, hfixed, ?_, ?_⟩
  · intro name cols cells hname hcol hall
    have hfm : cells.filterMap id = [] :=
      List.filterMap_eq_nil_iff.mpr (fun a ha => hall a ha)
    unfold read_excel_sheets
    rw [List.foldl_cons, List.foldl_nil]
    unfold readStep
    rw [if_neg (by simpa using hname)]
    rw [hcol]
    show insertExtend [] name (cells.filterMap id) = [(name, [])]
    rw [hfm]
    unfold insertExtend
    simp
  · intro A B s hB hsB hmem
    rw [added_eq_fixed_swap] at hmem
    exact hfixed B A s hB hsB hmem
  · intro m₁ m₂ s
    have hset : globalDistinct (m₁ ++ (s, []) :: m₂) = globalDistinct (m₁ ++ m₂) := by
      rw [globalDistinct_append, globalDistinct_append, globalDistinct_cons]
      simp
    refine ⟨hset, ?_⟩
    rw [distinctCves_length, distinctCves_length, hset]

/-- Witness for C10: a sheet named EmptySheet with a two-cell all-null
CVE_ID column loads as an empty entry, and an empty entry produces no
fixed-diff key. -/
theorem C10_all_null_column_witness :
    read_excel_sheets [⟨"EmptySheet", [("CVE_ID", [none, none])]⟩] =
      [("EmptySheet", [])] ∧
    "EmptySheet" ∉ dictKeys (find_fixed_cves [("EmptySheet", [])]
      [("EmptySheet", ["CVE-9"])]) :=
  ⟨C10_all_null_column.1 "EmptySheet" [("CVE_ID", [none, none])] [none, none]
      (by decide) rfl (by decide),
    C10_all_null_column.2.1 [("EmptySheet", [])] [("EmptySheet", ["CVE-9"])]
      "EmptySheet" (by decide) (by decide)⟩

end ExCompara
